import Mathlib

/-!
Shallow embedding of `src/vm/src/obj/objbytes.rs` (the bytes object of a
Python-like runtime): the `PyBytes` value type, its comparison dispatch, and
the `PyBytesIterator` cursor, together with the payload collaborator
`PyByteInner` whose file (`objbyteinner.rs`) is not part of the inspected
sources and is therefore modelled from the specification.

Bytes (`u8` in the source) are modelled as `Nat`; every constructed element
lies in `0..255` and no operation here depends on wrap-around, so no modular
reduction is needed.  The interior-mutable cursor (`Cell<usize>`) becomes
explicit state passing: `next` returns the produced result together with the
updated iterator.
-/

namespace RustPyBytes

/-- The payload collaborator `PyByteInner` (field `elements: Vec<u8>`). -/
structure PyByteInner where
  elements : List Nat
  deriving DecidableEq, Repr

/-- Embeds `PyBytes { inner: PyByteInner }` from `objbytes.rs`. -/
structure PyBytes where
  inner : PyByteInner
  deriving DecidableEq, Repr

/-- Embeds `PyBytes::new(elements)` from `objbytes.rs`. -/
def PyBytes.new (elements : List Nat) : PyBytes :=
  { inner := { elements := elements } }

/-- Modelled from the spec: `PyByteInner::len` lives in `objbyteinner.rs`,
which is outside the inspected sources; the spec says Length() is the number
of elements of the sequence ("Length() == |S|"). -/
def PyByteInner.len (b : PyByteInner) : Nat :=
  b.elements.length

/-- Embeds `PyBytesRef::len` (`__len__`): `self.inner.len()`. -/
def PyBytesRef.len (self : PyBytes) : Nat :=
  self.inner.len

/-- A runtime error object (`PyBaseException` payload); only its presence
matters to this core. -/
structure PyError where
  msg : String
  deriving DecidableEq, Repr

/-- A runtime object, as seen by the dynamic comparison dispatch of
`objbytes.rs`: either a bytes object or some non-bytes payload
(`match_class!` only distinguishes "is `PyBytes`" from everything else). -/
inductive PyObj where
  | bytes (b : PyBytes)
  | int (i : Int)
  | str (s : String)
  | noneObj
  deriving DecidableEq, Repr

/-- Whether the object's payload is a `PyBytes`. -/
def PyObj.isBytes : PyObj → Bool
  | .bytes _ => true
  | _ => false

/-- Embeds `obj.payload::<PyBytes>()` : the downcast used by `get_value`. -/
def PyObjectRef.payload : PyObj → Option PyBytes
  | .bytes b => some b
  | _ => none

/-- Embeds `get_value(obj) = &obj.payload::<PyBytes>().unwrap().inner.elements`.
`Option.map` over the downcast: `none` models the `unwrap` panic on a
non-bytes payload. -/
def get_value (obj : PyObj) : Option (List Nat) :=
  (PyObjectRef.payload obj).map fun b => b.inner.elements

/-! ### The iterator -/

/-- Embeds `PyBytesIterator { position: Cell<usize>, bytes: PyBytesRef }`. -/
structure PyBytesIterator where
  position : Nat
  bytes : PyBytes
  deriving DecidableEq, Repr

/-- Result of one `__next__` call: an element, or the `StopIteration`
exhaustion signal produced by `objiter::new_stop_iteration`. -/
inductive NextResult where
  | ok (b : Nat)
  | stopIteration
  deriving DecidableEq, Repr

/-- Embeds `PyBytesIteratorRef::next`: if `position < bytes.inner.len()`, read the
byte at `position` and bump the cell by one; otherwise raise
`StopIteration`.  The updated iterator is returned explicitly. -/
def PyBytesIteratorRef.next (self : PyBytesIterator) :
    NextResult × PyBytesIterator :=
  if self.position < self.bytes.inner.len then
    (NextResult.ok (self.bytes.inner.elements.getD self.position 0),
      { self with position := self.position + 1 })
  else
    (NextResult.stopIteration, self)

/-- Embeds `PyBytesIteratorRef::iter` (`__iter__`): `self`. -/
def PyBytesIteratorRef.iter (self : PyBytesIterator) : PyBytesIterator :=
  self

/-- Embeds `PyBytesRef::iter` (`__iter__`): a fresh iterator with
`position: Cell::new(0)` over `self`. -/
def PyBytesRef.iter (self : PyBytes) : PyBytesIterator :=
  { position := 0, bytes := self }

/-- Embeds `k` successive `__next__` calls, keeping only the final iterator state. -/
def nextN (it : PyBytesIterator) : Nat → PyBytesIterator
  | 0 => it
  | k + 1 => (PyBytesIteratorRef.next (nextN it k)).2

/-! ### The payload collaborator's comparison, hash and formatting primitives

`objbyteinner.rs` is outside the inspected sources; these are modelled from
the specification, which asks for element-wise equality, four-way
lexicographic comparison on unsigned bytes, a pure hash of `elements`, and an
escaped textual body. -/

/-- Modelled from the spec: the collaborator's four-way lexicographic
comparison over raw sequences ("Ordering is lexicographic unsigned-byte
comparison"). -/
def lexCmp : List Nat → List Nat → Ordering
  | [], [] => Ordering.eq
  | [], _ :: _ => Ordering.lt
  | _ :: _, [] => Ordering.gt
  | x :: xs, y :: ys =>
    if x < y then Ordering.lt
    else if y < x then Ordering.gt
    else lexCmp xs ys

/-- Modelled from the spec: `PyByteInner::eq` ("Equality ⇔ element-wise equal
sequences"; never fails). -/
def PyByteInner.eq (a b : PyByteInner) : Except PyError Bool :=
  Except.ok (a.elements == b.elements)

/-- Modelled from the spec: `PyByteInner::lt` (strict lexicographic order;
never fails). -/
def PyByteInner.lt (a b : PyByteInner) : Except PyError Bool :=
  Except.ok (lexCmp a.elements b.elements == Ordering.lt)

/-- Modelled from the spec: `PyByteInner::gt` (strict lexicographic order,
reversed; never fails). -/
def PyByteInner.gt (a b : PyByteInner) : Except PyError Bool :=
  Except.ok (lexCmp a.elements b.elements == Ordering.gt)

/-- Modelled from the spec: `PyByteInner::le` (lexicographic
less-than-or-equal; never fails). -/
def PyByteInner.le (a b : PyByteInner) : Except PyError Bool :=
  Except.ok (lexCmp a.elements b.elements != Ordering.gt)

/-- Modelled from the spec: `PyByteInner::ge` (lexicographic
greater-than-or-equal; never fails). -/
def PyByteInner.ge (a b : PyByteInner) : Except PyError Bool :=
  Except.ok (lexCmp a.elements b.elements != Ordering.lt)

/-- Modelled from the spec: `PyByteInner::hash`, a pure deterministic
function of `elements` into the machine-word range (`usize` is 64-bit
here, hence the reduction modulo `2 ^ 64`). -/
def PyByteInner.hash (b : PyByteInner) : Nat :=
  b.elements.foldl (fun h x => (h * 31 + x) % 2 ^ 64) 5381

/-- The single-quote character, byte 39. -/
def squoteChar : Char := Char.ofNat 39

/-- The backslash character, byte 92. -/
def backslashChar : Char := Char.ofNat 92

/-- Lower-case hexadecimal digit for `n < 16`. -/
def hexDigit (n : Nat) : Char :=
  if n < 10 then Char.ofNat (48 + n) else Char.ofNat (87 + n)

/-- Modelled from the spec: the collaborator's escaping of one byte for
`repr` ("Quoted, escaped human-readable form; escaping rules owned by the
collaborator"); printable ASCII other than the quote and the backslash is
kept verbatim, the rest is escaped conventionally. -/
def escapeByte (b : Nat) : List Char :=
  if b = 92 then [backslashChar, backslashChar]
  else if b = 39 then [backslashChar, squoteChar]
  else if b = 9 then [backslashChar, Char.ofNat 116]
  else if b = 10 then [backslashChar, Char.ofNat 110]
  else if b = 13 then [backslashChar, Char.ofNat 114]
  else if 32 ≤ b ∧ b ≤ 126 then [Char.ofNat b]
  else [backslashChar, Char.ofNat 120, hexDigit (b / 16), hexDigit (b % 16)]

/-- Modelled from the spec: `PyByteInner::repr`, the escaped body of the
textual form; it returns a runtime result ("Fails only on internal/fatal
formatting error" — the modelled formatting always succeeds). -/
def PyByteInner.repr (b : PyByteInner) : Except PyError String :=
  Except.ok (String.mk (b.elements.flatMap escapeByte))

/-- The single-quote as a one-character string. -/
def squote : String := String.mk [squoteChar]

/-! ### The operations of `PyBytesRef` (`objbytes.rs`) -/

/-- Outcome of a rich-comparison slot: a boolean object, or the canonical
`NotImplemented` sentinel (`vm.ctx.not_implemented()`). -/
inductive CmpOut where
  | boolean (b : Bool)
  | notImplemented
  deriving DecidableEq, Repr

/-- Embeds `PyBytesRef::repr` (`__repr__`): the body produced by the
collaborator, wrapped as the letter b followed by the body between single
quotes, as in the format string of the source. -/
def PyBytesRef.repr (self : PyBytes) : Except PyError String :=
  (self.inner.repr).map fun body => "b" ++ squote ++ body ++ squote

/-- Embeds `PyBytesRef::hash` (`__hash__`): `self.inner.hash()`. -/
def PyBytesRef.hash (self : PyBytes) : Nat :=
  self.inner.hash

/-- Embeds `PyBytesRef::eq` (`__eq__`): `match_class!` — delegate to the payload on
a bytes operand, `Ok(NotImplemented)` on anything else. -/
def PyBytesRef.eq (self : PyBytes) (other : PyObj) : Except PyError CmpOut :=
  match other with
  | .bytes b => (self.inner.eq b.inner).map CmpOut.boolean
  | _ => Except.ok CmpOut.notImplemented

/-- Embeds `PyBytesRef::ge` (`__ge__`). -/
def PyBytesRef.ge (self : PyBytes) (other : PyObj) : Except PyError CmpOut :=
  match other with
  | .bytes b => (self.inner.ge b.inner).map CmpOut.boolean
  | _ => Except.ok CmpOut.notImplemented

/-- Embeds `PyBytesRef::le` (`__le__`). -/
def PyBytesRef.le (self : PyBytes) (other : PyObj) : Except PyError CmpOut :=
  match other with
  | .bytes b => (self.inner.le b.inner).map CmpOut.boolean
  | _ => Except.ok CmpOut.notImplemented

/-- Embeds `PyBytesRef::gt` (`__gt__`). -/
def PyBytesRef.gt (self : PyBytes) (other : PyObj) : Except PyError CmpOut :=
  match other with
  | .bytes b => (self.inner.gt b.inner).map CmpOut.boolean
  | _ => Except.ok CmpOut.notImplemented

/-- Embeds `PyBytesRef::lt` (`__lt__`). -/
def PyBytesRef.lt (self : PyBytes) (other : PyObj) : Except PyError CmpOut :=
  match other with
  | .bytes b => (self.inner.lt b.inner).map CmpOut.boolean
  | _ => Except.ok CmpOut.notImplemented

/-- The iterator invariant stated by the spec:
`0 ≤ position ≤ length(source)`. -/
def IterInv (it : PyBytesIterator) : Prop :=
  0 ≤ it.position ∧ it.position ≤ it.bytes.inner.len

instance (it : PyBytesIterator) : Decidable (IterInv it) := by
  unfold IterInv; infer_instance

/-- The strict lexicographic order on byte sequences, written out as the
spec describes it: an empty sequence precedes any non-empty one, and on a
common head the comparison recurses; on differing heads the unsigned byte
order decides. -/
inductive SpecLexLt : List Nat → List Nat → Prop where
  | nil (y : Nat) (ys : List Nat) : SpecLexLt [] (y :: ys)
  | head (x y : Nat) (xs ys : List Nat) :
      x < y → SpecLexLt (x :: xs) (y :: ys)
  | tail (x : Nat) (xs ys : List Nat) :
      SpecLexLt xs ys → SpecLexLt (x :: xs) (x :: ys)

/-! ### Supporting lemmas -/

theorem lexCmp_eq_iff (xs ys : List Nat) :
    lexCmp xs ys = Ordering.eq ↔ xs = ys := by
  induction xs generalizing ys with
  | nil => cases ys <;> simp [lexCmp]
  | cons x xs ih =>
    cases ys with
    | nil => simp [lexCmp]
    | cons y ys =>
      simp only [lexCmp]
      by_cases h1 : x < y
      · simp only [if_pos h1]
        exact iff_of_false (by decide) (by intro hc; injection hc; omega)
      · by_cases h2 : y < x
        · simp only [if_neg h1, if_pos h2]
          exact iff_of_false (by decide) (by intro hc; injection hc; omega)
        · have hxy : x = y := by omega
          subst hxy
          simp only [if_neg h1, if_neg h2]
          rw [ih ys]
          simp

theorem lexCmp_gt_iff_swap (xs ys : List Nat) :
    lexCmp xs ys = Ordering.gt ↔ lexCmp ys xs = Ordering.lt := by
  induction xs generalizing ys with
  | nil => cases ys <;> simp [lexCmp]
  | cons x xs ih =>
    cases ys with
    | nil => simp [lexCmp]
    | cons y ys =>
      by_cases h1 : x < y
      · have h2 : ¬ y < x := by omega
        simp [lexCmp, h1, h2]
      · by_cases h2 : y < x
        · simp [lexCmp, h1, h2]
        · simp [lexCmp, h1, h2, ih ys]

theorem lexCmp_lt_iff_spec (xs ys : List Nat) :
    lexCmp xs ys = Ordering.lt ↔ SpecLexLt xs ys := by
  induction xs generalizing ys with
  | nil =>
    cases ys with
    | nil =>
      exact iff_of_false (by simp [lexCmp]) (fun h => nomatch h)
    | cons y ys =>
      exact iff_of_true (by simp [lexCmp]) (SpecLexLt.nil y ys)
  | cons x xs ih =>
    cases ys with
    | nil =>
      exact iff_of_false (by simp [lexCmp]) (fun h => nomatch h)
    | cons y ys =>
      simp only [lexCmp]
      by_cases h1 : x < y
      · simp only [if_pos h1]
        exact iff_of_true (by simp) (SpecLexLt.head x y xs ys h1)
      · by_cases h2 : y < x
        · simp only [if_neg h1, if_pos h2]
          refine iff_of_false (by decide) ?_
          intro h
          cases h
          · omega
          · omega
        · have hxy : x = y := by omega
          subst hxy
          simp only [if_neg h1, if_neg h2]
          rw [ih ys]
          constructor
          · exact fun h => SpecLexLt.tail x xs ys h
          · intro h
            cases h
            · omega
            · assumption

theorem nextN_position (S : List Nat) (i : Nat) (h : i ≤ S.length) :
    nextN (PyBytesRef.iter (PyBytes.new S)) i =
      { position := i, bytes := PyBytes.new S } := by
  induction i with
  | zero => rfl
  | succ k ih =>
    have hk : k ≤ S.length := Nat.le_of_succ_le h
    have hlt : k < (PyBytes.new S).inner.len := by
      simp only [PyBytes.new, PyByteInner.len]
      omega
    simp [nextN, ih hk, PyBytesIteratorRef.next, hlt]

theorem nextN_exhausted (it : PyBytesIterator)
    (h : it.bytes.inner.len ≤ it.position) (k : Nat) :
    nextN it k = it := by
  induction k with
  | zero => rfl
  | succ n ih =>
    simp [nextN, ih, PyBytesIteratorRef.next, Nat.not_lt.mpr h]

/-! ### The claims -/

/-- C1: whenever `position < length(source)`, `next` returns the element of
the underlying byte sequence at index `position` and increments `position`
by exactly one; whenever `position ≥ length(source)`, it signals exhaustion
(StopIteration) instead of returning an element. -/
theorem next_active_or_exhausted (it : PyBytesIterator) :
    (it.position < it.bytes.inner.len →
      PyBytesIteratorRef.next it =
        (NextResult.ok (it.bytes.inner.elements.getD it.position 0),
          { it with position := it.position + 1 })) ∧
    (it.bytes.inner.len ≤ it.position →
      (PyBytesIteratorRef.next it).1 = NextResult.stopIteration) := by
  constructor
  · intro h
    simp [PyBytesIteratorRef.next, h]
  · intro h
    simp [PyBytesIteratorRef.next, Nat.not_lt.mpr h]

/-- Witness for C1 at a concrete active and a concrete exhausted iterator. -/
theorem next_active_or_exhausted_witness :
    PyBytesIteratorRef.next { position := 1, bytes := PyBytes.new [5, 7, 9] } =
      (NextResult.ok 7, { position := 2, bytes := PyBytes.new [5, 7, 9] }) ∧
    (PyBytesIteratorRef.next
        { position := 3, bytes := PyBytes.new [5, 7, 9] }).1 =
      NextResult.stopIteration := by
  constructor
  · have h := (next_active_or_exhausted
      { position := 1, bytes := PyBytes.new [5, 7, 9] }).1 (by decide)
    simpa using h
  · exact (next_active_or_exhausted
      { position := 3, bytes := PyBytes.new [5, 7, 9] }).2 (by decide)

/-- C3: the exhausted state (`position = length(source)`) is terminal: after
any number of further `next` calls the iterator state is unchanged and the
next call still signals exhaustion, so the iterator never re-enters the
active state. -/
theorem exhausted_is_terminal (it : PyBytesIterator)
    (h : it.position = it.bytes.inner.len) (k : Nat) :
    nextN it k = it ∧
    PyBytesIteratorRef.next (nextN it k) =
      (NextResult.stopIteration, nextN it k) := by
  have hge : it.bytes.inner.len ≤ it.position := Nat.le_of_eq h.symm
  have h1 : nextN it k = it := nextN_exhausted it hge k
  refine ⟨h1, ?_⟩
  rw [h1]
  simp [PyBytesIteratorRef.next, Nat.not_lt.mpr hge]

/-- Witness for C3 at a concrete exhausted iterator after four extra calls. -/
theorem exhausted_is_terminal_witness :
    nextN { position := 2, bytes := PyBytes.new [5, 7] } 4 =
      { position := 2, bytes := PyBytes.new [5, 7] } ∧
    PyBytesIteratorRef.next
        (nextN { position := 2, bytes := PyBytes.new [5, 7] } 4) =
      (NextResult.stopIteration,
        nextN { position := 2, bytes := PyBytes.new [5, 7] } 4) :=
  exhausted_is_terminal { position := 2, bytes := PyBytes.new [5, 7] }
    (by decide) 4

/-- C4: the invariant `0 ≤ position ≤ length(source)` holds for the iterator
created by the bytes object and is preserved by `next` and by GetSelf. -/
theorem iterator_invariant (b : PyBytes) (it : PyBytesIterator)
    (h : IterInv it) :
    IterInv (PyBytesRef.iter b) ∧
    IterInv (PyBytesIteratorRef.next it).2 ∧
    IterInv (PyBytesIteratorRef.iter it) := by
  refine ⟨⟨Nat.zero_le _, Nat.zero_le _⟩, ?_, h⟩
  by_cases hlt : it.position < it.bytes.inner.len
  · simp only [PyBytesIteratorRef.next, if_pos hlt]
    exact ⟨Nat.zero_le _, hlt⟩
  · simp only [PyBytesIteratorRef.next, if_neg hlt]
    exact h

/-- Witness for C4 at a concrete bytes value and iterator. -/
theorem iterator_invariant_witness :
    IterInv (PyBytesRef.iter (PyBytes.new [1])) ∧
    IterInv (PyBytesIteratorRef.next
      { position := 0, bytes := PyBytes.new [2, 3] }).2 ∧
    IterInv (PyBytesIteratorRef.iter
      { position := 0, bytes := PyBytes.new [2, 3] }) :=
  iterator_invariant (PyBytes.new [1])
    { position := 0, bytes := PyBytes.new [2, 3] } (by decide)

/-- C8: GetSelf (the iterator slot named iter in the source) returns the
very same iterator state, with `position` unchanged, for every iterator and
every value of `position`. -/
theorem iter_self_identity (it : PyBytesIterator) :
    PyBytesIteratorRef.iter it = it ∧
    (PyBytesIteratorRef.iter it).position = it.position :=
  ⟨rfl, rfl⟩

/-- C10: when the payload of the argument is a bytes object, `get_value`
returns exactly that object's `elements` sequence; when the payload is not
a bytes object, the unwrap panics (modelled by `none`) instead of returning
an error value. -/
theorem get_value_spec (obj : PyObj) :
    (∀ b : PyBytes, PyObjectRef.payload obj = some b →
      get_value obj = some b.inner.elements) ∧
    (PyObjectRef.payload obj = none → get_value obj = none) := by
  constructor
  · intro b hb
    simp [get_value, hb]
  · intro hb
    simp [get_value, hb]

/-- Witness for C10 at a bytes payload and a non-bytes payload. -/
theorem get_value_spec_witness :
    get_value (PyObj.bytes (PyBytes.new [3, 4])) = some [3, 4] ∧
    get_value (PyObj.int 7) = none := by
  constructor
  · exact (get_value_spec (PyObj.bytes (PyBytes.new [3, 4]))).1
      (PyBytes.new [3, 4]) rfl
  · exact (get_value_spec (PyObj.int 7)).2 rfl

/-- C2: against a non-bytes operand each of the five comparison slots
returns Ok of the NotImplemented sentinel (so no error is raised), and
against a bytes operand each of the five slots succeeds (never fails). -/
theorem comparisons_dispatch (b b2 : PyBytes) (o : PyObj)
    (h : o.isBytes = false) :
    (PyBytesRef.eq b o = Except.ok CmpOut.notImplemented ∧
     PyBytesRef.ge b o = Except.ok CmpOut.notImplemented ∧
     PyBytesRef.le b o = Except.ok CmpOut.notImplemented ∧
     PyBytesRef.gt b o = Except.ok CmpOut.notImplemented ∧
     PyBytesRef.lt b o = Except.ok CmpOut.notImplemented) ∧
    ((∃ r, PyBytesRef.eq b (PyObj.bytes b2) = Except.ok r) ∧
     (∃ r, PyBytesRef.ge b (PyObj.bytes b2) = Except.ok r) ∧
     (∃ r, PyBytesRef.le b (PyObj.bytes b2) = Except.ok r) ∧
     (∃ r, PyBytesRef.gt b (PyObj.bytes b2) = Except.ok r) ∧
     (∃ r, PyBytesRef.lt b (PyObj.bytes b2) = Except.ok r)) := by
  constructor
  · cases o with
    | bytes b3 => simp [PyObj.isBytes] at h
    | int i => exact ⟨rfl, rfl, rfl, rfl, rfl⟩
    | str s => exact ⟨rfl, rfl, rfl, rfl, rfl⟩
    | noneObj => exact ⟨rfl, rfl, rfl, rfl, rfl⟩
  · exact ⟨⟨_, rfl⟩, ⟨_, rfl⟩, ⟨_, rfl⟩, ⟨_, rfl⟩, ⟨_, rfl⟩⟩

/-- Witness for C2 against a concrete integer object and bytes operand. -/
theorem comparisons_dispatch_witness :
    (PyBytesRef.eq (PyBytes.new [1]) (PyObj.int 0) =
        Except.ok CmpOut.notImplemented ∧
     PyBytesRef.ge (PyBytes.new [1]) (PyObj.int 0) =
        Except.ok CmpOut.notImplemented ∧
     PyBytesRef.le (PyBytes.new [1]) (PyObj.int 0) =
        Except.ok CmpOut.notImplemented ∧
     PyBytesRef.gt (PyBytes.new [1]) (PyObj.int 0) =
        Except.ok CmpOut.notImplemented ∧
     PyBytesRef.lt (PyBytes.new [1]) (PyObj.int 0) =
        Except.ok CmpOut.notImplemented) ∧
    ((∃ r, PyBytesRef.eq (PyBytes.new [1]) (PyObj.bytes (PyBytes.new [2])) =
        Except.ok r) ∧
     (∃ r, PyBytesRef.ge (PyBytes.new [1]) (PyObj.bytes (PyBytes.new [2])) =
        Except.ok r) ∧
     (∃ r, PyBytesRef.le (PyBytes.new [1]) (PyObj.bytes (PyBytes.new [2])) =
        Except.ok r) ∧
     (∃ r, PyBytesRef.gt (PyBytes.new [1]) (PyObj.bytes (PyBytes.new [2])) =
        Except.ok r) ∧
     (∃ r, PyBytesRef.lt (PyBytes.new [1]) (PyObj.bytes (PyBytes.new [2])) =
        Except.ok r)) :=
  comparisons_dispatch (PyBytes.new [1]) (PyBytes.new [2]) (PyObj.int 0) rfl

/-- C5: a bytes value built from a raw sequence `S` has length `|S|`; its
iteration entry point yields a fresh iterator at `position = 0`; the first
`|S|` calls to `next` return the elements of `S` at indices `0 .. |S| - 1`
in order, and the following call signals exhaustion. -/
theorem construct_iterate_roundtrip (S : List Nat) :
    PyBytesRef.len (PyBytes.new S) = S.length ∧
    (PyBytesRef.iter (PyBytes.new S)).position = 0 ∧
    (∀ i, i < S.length →
      (PyBytesIteratorRef.next
          (nextN (PyBytesRef.iter (PyBytes.new S)) i)).1 =
        NextResult.ok (S.getD i 0)) ∧
    (PyBytesIteratorRef.next
        (nextN (PyBytesRef.iter (PyBytes.new S)) S.length)).1 =
      NextResult.stopIteration := by
  refine ⟨rfl, rfl, ?_, ?_⟩
  · intro i hi
    rw [nextN_position S i (Nat.le_of_lt hi)]
    simp [PyBytesIteratorRef.next, PyBytes.new, PyByteInner.len, hi]
  · rw [nextN_position S S.length (Nat.le_refl _)]
    simp [PyBytesIteratorRef.next, PyBytes.new, PyByteInner.len]

/-- Witness for C5 on the concrete sequence `[10, 20]`. -/
theorem construct_iterate_roundtrip_witness :
    PyBytesRef.len (PyBytes.new [10, 20]) = 2 ∧
    (PyBytesIteratorRef.next
        (nextN (PyBytesRef.iter (PyBytes.new [10, 20])) 1)).1 =
      NextResult.ok 20 ∧
    (PyBytesIteratorRef.next
        (nextN (PyBytesRef.iter (PyBytes.new [10, 20])) 2)).1 =
      NextResult.stopIteration := by
  obtain ⟨h1, _, h3, h4⟩ := construct_iterate_roundtrip [10, 20]
  exact ⟨h1, h3 1 (by decide), h4⟩

/-- C6: between two bytes values, equality holds iff the element sequences
are element-wise equal; less-than is the strict lexicographic order on
unsigned bytes; exactly one of equal, less and greater holds for the pair;
and the greater-or-equal and less-or-equal slots are the matching
disjunctions. -/
theorem comparison_algebra (a b : PyBytes) :
    (PyBytesRef.eq a (PyObj.bytes b) = Except.ok (CmpOut.boolean true) ↔
      a.inner.elements = b.inner.elements) ∧
    (PyBytesRef.lt a (PyObj.bytes b) = Except.ok (CmpOut.boolean true) ↔
      SpecLexLt a.inner.elements b.inner.elements) ∧
    ((PyBytesRef.eq a (PyObj.bytes b) = Except.ok (CmpOut.boolean true) ∧
      ¬ PyBytesRef.lt a (PyObj.bytes b) = Except.ok (CmpOut.boolean true) ∧
      ¬ PyBytesRef.gt a (PyObj.bytes b) = Except.ok (CmpOut.boolean true)) ∨
     (¬ PyBytesRef.eq a (PyObj.bytes b) = Except.ok (CmpOut.boolean true) ∧
      PyBytesRef.lt a (PyObj.bytes b) = Except.ok (CmpOut.boolean true) ∧
      ¬ PyBytesRef.gt a (PyObj.bytes b) = Except.ok (CmpOut.boolean true)) ∨
     (¬ PyBytesRef.eq a (PyObj.bytes b) = Except.ok (CmpOut.boolean true) ∧
      ¬ PyBytesRef.lt a (PyObj.bytes b) = Except.ok (CmpOut.boolean true) ∧
      PyBytesRef.gt a (PyObj.bytes b) = Except.ok (CmpOut.boolean true))) ∧
    (PyBytesRef.ge a (PyObj.bytes b) = Except.ok (CmpOut.boolean true) ↔
      (PyBytesRef.gt a (PyObj.bytes b) = Except.ok (CmpOut.boolean true) ∨
       PyBytesRef.eq a (PyObj.bytes b) = Except.ok (CmpOut.boolean true))) ∧
    (PyBytesRef.le a (PyObj.bytes b) = Except.ok (CmpOut.boolean true) ↔
      (PyBytesRef.lt a (PyObj.bytes b) = Except.ok (CmpOut.boolean true) ∨
       PyBytesRef.eq a (PyObj.bytes b) = Except.ok (CmpOut.boolean true))) := by
  have heq : PyBytesRef.eq a (PyObj.bytes b) =
      Except.ok (CmpOut.boolean true) ↔
      a.inner.elements = b.inner.elements := by
    simp [PyBytesRef.eq, PyByteInner.eq, Except.map]
  have hlt : PyBytesRef.lt a (PyObj.bytes b) =
      Except.ok (CmpOut.boolean true) ↔
      lexCmp a.inner.elements b.inner.elements = Ordering.lt := by
    simp only [PyBytesRef.lt, PyByteInner.lt, Except.map,
      Except.ok.injEq, CmpOut.boolean.injEq]
    cases lexCmp a.inner.elements b.inner.elements <;> decide
  have hgt : PyBytesRef.gt a (PyObj.bytes b) =
      Except.ok (CmpOut.boolean true) ↔
      lexCmp a.inner.elements b.inner.elements = Ordering.gt := by
    simp only [PyBytesRef.gt, PyByteInner.gt, Except.map,
      Except.ok.injEq, CmpOut.boolean.injEq]
    cases lexCmp a.inner.elements b.inner.elements <;> decide
  have hge : PyBytesRef.ge a (PyObj.bytes b) =
      Except.ok (CmpOut.boolean true) ↔
      ¬ lexCmp a.inner.elements b.inner.elements = Ordering.lt := by
    simp only [PyBytesRef.ge, PyByteInner.ge, Except.map,
      Except.ok.injEq, CmpOut.boolean.injEq]
    cases lexCmp a.inner.elements b.inner.elements <;> decide
  have hle : PyBytesRef.le a (PyObj.bytes b) =
      Except.ok (CmpOut.boolean true) ↔
      ¬ lexCmp a.inner.elements b.inner.elements = Ordering.gt := by
    simp only [PyBytesRef.le, PyByteInner.le, Except.map,
      Except.ok.injEq, CmpOut.boolean.injEq]
    cases lexCmp a.inner.elements b.inner.elements <;> decide
  refine ⟨heq, hlt.trans (lexCmp_lt_iff_spec _ _), ?_, ?_, ?_⟩
  · rw [heq, hlt, hgt, ← lexCmp_eq_iff]
    cases h : lexCmp a.inner.elements b.inner.elements <;> simp [h]
  · rw [hge, hgt, heq, ← lexCmp_eq_iff]
    cases h : lexCmp a.inner.elements b.inner.elements <;> simp [h]
  · rw [hle, hlt, heq, ← lexCmp_eq_iff]
    cases h : lexCmp a.inner.elements b.inner.elements <;> simp [h]

/-- C7: the hash is a deterministic pure function of the element sequence:
recomputing it on the same value gives the same integer, and two bytes
values with element-wise equal `elements` have equal hashes. -/
theorem hash_deterministic (a b : PyBytes)
    (h : a.inner.elements = b.inner.elements) :
    PyBytesRef.hash a = PyBytesRef.hash a ∧
    PyBytesRef.hash a = PyBytesRef.hash b := by
  refine ⟨rfl, ?_⟩
  simp [PyBytesRef.hash, PyByteInner.hash, h]

/-- Witness for C7 on two equal-element bytes values. -/
theorem hash_deterministic_witness :
    PyBytesRef.hash (PyBytes.new [1, 2]) =
      PyBytesRef.hash (PyBytes.new [1, 2]) ∧
    PyBytesRef.hash (PyBytes.new [1, 2]) =
      PyBytesRef.hash { inner := { elements := [1, 2] } } :=
  hash_deterministic (PyBytes.new [1, 2])
    { inner := { elements := [1, 2] } } rfl

/-- C9: the textual representation is the letter b followed by the escaped
body between single quotes whenever the collaborator formats the body, it
propagates exactly the collaborator error otherwise, and on the bytes value
of `[104, 101, 108, 108, 111]` it is the eight-character text
b-quote-hello-quote. -/
theorem repr_quoted_form (b : PyBytes) :
    (∀ body, b.inner.repr = Except.ok body →
      PyBytesRef.repr b = Except.ok ("b" ++ squote ++ body ++ squote)) ∧
    (∀ e, b.inner.repr = Except.error e →
      PyBytesRef.repr b = Except.error e) ∧
    PyBytesRef.repr (PyBytes.new [104, 101, 108, 108, 111]) =
      Except.ok ("b" ++ squote ++ "hello" ++ squote) := by
  refine ⟨?_, ?_, ?_⟩
  · intro body hb
    simp [PyBytesRef.repr, hb, Except.map]
  · intro e he
    simp [PyBytesRef.repr, he, Except.map]
  · rfl

/-- Witness for C9 on the concrete hello bytes value. -/
theorem repr_quoted_form_witness :
    PyBytesRef.repr (PyBytes.new [104, 101, 108, 108, 111]) =
      Except.ok ("b" ++ squote ++ "hello" ++ squote) :=
  (repr_quoted_form (PyBytes.new [104, 101, 108, 108, 111])).1
    "hello" rfl

end RustPyBytes
